import Mathlib

/-!
Shallow embedding of `src/Vrac.js` (vuex-rest-api-cache).

The class `Vrac` builds a Vuex store module per resource: a URL builder
(`getUrl`, lines 136-157), a call registry built in the constructor
(lines 89-127), mutations (`createOrUpdate`, `destroy`, `loading`,
`loaded`, lines 242-273), getters (lines 280-292) and per-call async
actions (lines 303-358).

JavaScript values appearing as record fields / URL fields are modelled by
`Value` (strings, integer numbers, booleans, null); `undefined` is
modelled as `Option.none` of a property lookup.  JS objects whose
properties we access are association lists `JsObj`.  The loading counters
are JS numbers that may become NaN (`undefined - 1`), modelled by
`Option Int` with `none` for NaN.
-/

/-- A JavaScript primitive value as used by this module (URL template
fields, record fields, identifiers). -/
inductive Value where
  | vStr : String → Value
  | vNum : Int → Value
  | vBool : Bool → Value
  | vNull : Value
deriving DecidableEq

/-- JS string coercion as performed by `url.replace(..., fields[field])`
and `url += fields[this.identifier]`. -/
def Value.toStr : Value → String
  | .vStr s => s
  | .vNum n => toString n
  | .vBool b => if b then "true" else "false"
  | .vNull => "null"

/-- JS truthiness of a defined value (`if (fields[this.identifier])`,
`if (!fields[self.identifier])`). -/
def Value.truthy : Value → Bool
  | .vStr s => !s.isEmpty
  | .vNum n => decide (n ≠ 0)
  | .vBool b => b
  | .vNull => false

/-- A JS object used as a fields map or a cached record: an association
list from property names to values; a missing key reads as `undefined`
(`none`). -/
abbrev JsObj := List (String × Value)

/-- Property read `obj[k]`: `some v` when present, `none` for `undefined`. -/
def getProp (obj : JsObj) (k : String) : Option Value :=
  match obj.find? (fun p => p.1 == k) with
  | some p => some p.2
  | none => none

/-- JS strict equality `a === b` between two property reads (either of
which may be `undefined`); used by the `!==` tests in the mutations
(lines 246 and 253) and the `===` test in the `read` getter (line 285). -/
def jsEqOpt : Option Value → Option Value → Bool
  | none, none => true
  | some v, some w => decide (v = w)
  | _, _ => false

/-- Truthiness of a property read: `undefined` is falsy. -/
def truthyAt (fields : JsObj) (k : String) : Bool :=
  match getProp fields k with
  | some v => v.truthy
  | none => false

/-! ## URL builder (`getUrl`, lines 136-157) -/

/-- The character class of the placeholder regexp `/:([a-z,_]+)/gi`:
letters of either case (the `i` flag), comma and underscore.  Note that
digits are NOT matched. -/
def isPlaceholderChar (c : Char) : Bool :=
  (decide ('a' ≤ c) && decide (c ≤ 'z')) ||
  (decide ('A' ≤ c) && decide (c ≤ 'Z')) ||
  c == ',' || c == '_'

/-- Left-to-right, non-overlapping scan of `url.match(/:([a-z,_]+)/gi)`,
returning the captured groups (`.map(s => s.slice(1))`, line 138).  The
fuel argument (instantiated with the length of the list) only makes the
recursion structural; it never runs out. -/
def matchPlaceholdersAux : Nat → List Char → List String
  | 0, _ => []
  | _ + 1, [] => []
  | fuel + 1, c :: rest =>
      if c = ':' then
        let run := rest.takeWhile isPlaceholderChar
        if run.isEmpty then matchPlaceholdersAux fuel rest
        else String.mk run :: matchPlaceholdersAux fuel (rest.drop run.length)
      else matchPlaceholdersAux fuel rest

/-- `(url.match(/:([a-z,_]+)/gi) || []).map(s => s.slice(1))` (line 138). -/
def matchPlaceholders (s : String) : List String :=
  matchPlaceholdersAux s.data.length s.data

/-- Whether `pat` occurs at the head of `s`. -/
def matchesAt : List Char → List Char → Bool
  | [], _ => true
  | _ :: _, [] => false
  | p :: ps, c :: cs => p == c && matchesAt ps cs

/-- First-occurrence literal substring replacement, the behaviour of JS
`String#replace` with a string pattern (line 145). -/
def replaceFirstAux (pat repl : List Char) : List Char → List Char
  | [] => []
  | c :: rest =>
      if matchesAt pat (c :: rest) then repl ++ (c :: rest).drop pat.length
      else c :: replaceFirstAux pat repl rest

/-- `url.replace(pat, repl)` for a literal string pattern. -/
def replaceFirst (s pat repl : String) : String :=
  String.mk (replaceFirstAux pat.data repl.data s.data)

/-- The `reqFields.forEach` loop of `getUrl` (lines 140-146): for each
matched placeholder in order, throw if the field is `undefined`, else
substitute the first occurrence of `:field`. -/
def substitutePlaceholders (fields : JsObj) : List String → String → Except String String
  | [], url => .ok url
  | f :: rest, url =>
      match getProp fields f with
      | none => .error ("You must pass the '" ++ f ++ "' field")
      | some v => substitutePlaceholders fields rest (replaceFirst url (":" ++ f) v.toStr)

/-- `url.slice(-1)[0] !== '/'` (line 149): the last character test; an
empty string reads `undefined`, which is not `'/'`. -/
def lastCharIsSlash (url : String) : Bool :=
  url.data.getLast? == some '/'

/-- The identifier-appending step of `getUrl` (lines 148-154): if the
identifier field is truthy, add a `/` unless the url already ends with
one, then append the identifier's string coercion. -/
def appendIdentifier (identifier : String) (fields : JsObj) (url : String) : String :=
  match getProp fields identifier with
  | some v =>
      if v.truthy then (if lastCharIsSlash url then url else url ++ "/") ++ v.toStr
      else url
  | none => url

/-- `Vrac#getUrl` (lines 136-157): substitute all matched placeholders
(throwing on a missing field), then append the identifier segment. -/
def getUrl (baseUrl identifier : String) (fields : JsObj) : Except String String :=
  Except.map (appendIdentifier identifier fields)
    (substitutePlaceholders fields (matchPlaceholders baseUrl) baseUrl)

/-! ## Module state and mutations (lines 230-273) -/

/-- The module state (lines 230-235): the cached record list `index` and
the `actionsLoading` counter map.  Counter values are JS numbers which
may be NaN (`undefined - 1` in `loaded`), modelled as `Option Int` with
`none` for NaN. -/
structure MState where
  index : List JsObj
  actionsLoading : List (String × Option Int)
deriving DecidableEq

/-- The default state (lines 230-235): empty cache, empty counter map. -/
def initialState : MState := ⟨[], []⟩

/-- Counter-map read `state.actionsLoading[action]`: outer `none` is
`undefined` (key absent), `some none` is NaN. -/
def lookupAL (al : List (String × Option Int)) (k : String) : Option (Option Int) :=
  match al.find? (fun p => p.1 == k) with
  | some p => some p.2
  | none => none

/-- `Object.assign({}, al, {[k]: v})`: overwrite the key in place if
present, else append it. -/
def setAL (al : List (String × Option Int)) (k : String) (v : Option Int) :
    List (String × Option Int) :=
  if al.any (fun p => p.1 == k) then
    al.map (fun p => if p.1 == k then (k, v) else p)
  else al ++ [(k, v)]

/-- `x || 0` for a possibly-undefined JS number: `undefined`, NaN and `0`
are falsy and give `0`. -/
def orZero : Option (Option Int) → Int
  | some (some n) => n
  | _ => 0

/-- Mutation `createOrUpdate` (lines 244-249): drop every cached record
whose identifier strictly equals the model's, then append the model. -/
def mutCreateOrUpdate (idf : String) (s : MState) (model : JsObj) : MState :=
  ⟨(s.index.filter (fun m => !(jsEqOpt (getProp m idf) (getProp model idf)))) ++ [model],
   s.actionsLoading⟩

/-- Mutation `destroy` (lines 251-255): drop every cached record whose
identifier strictly equals the model's. -/
def mutDestroy (idf : String) (s : MState) (model : JsObj) : MState :=
  ⟨s.index.filter (fun m => !(jsEqOpt (getProp m idf) (getProp model idf))),
   s.actionsLoading⟩

/-- Mutation `loading` (lines 257-263): set the action's counter to
`(actionsLoading[action] || 0) + 1`. -/
def mutLoading (s : MState) (action : String) : MState :=
  ⟨s.index,
   setAL s.actionsLoading action (some (orZero (lookupAL s.actionsLoading action) + 1))⟩

/-- Mutation `loaded` (lines 265-271): set the action's counter to
`actionsLoading[action] - 1`; subtracting from `undefined` or NaN gives
NaN. -/
def mutLoaded (s : MState) (action : String) : MState :=
  ⟨s.index,
   setAL s.actionsLoading action
     (match lookupAL s.actionsLoading action with
      | some (some n) => some (n - 1)
      | _ => none)⟩

/-- Getter `read` (lines 284-286) as used by the actions: find the first
cached record whose identifier strictly equals the given value.  The
`BaseModel` materialization (`createModel`, from `~/index`, not under
`src/`) is modelled from the spec as preserving the record's fields, so
property reads go through to the raw record. -/
def readGetter (idf : String) (s : MState) (v : Option Value) : Option JsObj :=
  s.index.find? (fun m => jsEqOpt (getProp m idf) v)

/-! ## Call registry (constructor, lines 89-127 and `createCall`,
lines 183-198) -/

/-- Which default cacher a call was registered with.  The cacher
functions themselves (`cacheSingle`, `cacheMultiple`, `cacheDestroy`)
are imported from `~/index`, which is not under `src/`; their effect is
modelled from the spec below (`applyCacher`). -/
inductive CacherKind where
  | single : CacherKind
  | multiple : CacherKind
  | destroyRec : CacherKind
deriving DecidableEq

/-- One entry of `this.calls` (lines 190-197).  The parser slot is not
carried: the parsers also live in `~/index` and their output is
abstracted as the `Parsed` payload of a successful adapter outcome. -/
structure Call where
  name : String
  method : String
  cacher : CacherKind
  identified : Bool
  readCache : Bool
deriving DecidableEq

/-- `createCall('index')` with all defaults (lines 89-91, 183-189). -/
def callIndex : Call := ⟨"index", "get", .multiple, false, false⟩

/-- `createCall('create', {method: 'post', ..., identified: false})`
(lines 93-100). -/
def callCreate : Call := ⟨"create", "post", .single, false, false⟩

/-- `createCall('read', {..., identified: true, readCache: true})`
(lines 102-109). -/
def callRead : Call := ⟨"read", "get", .single, true, true⟩

/-- `createCall('update', {method: 'patch', ..., identified: true})`
(lines 111-118). -/
def callUpdate : Call := ⟨"update", "patch", .single, true, false⟩

/-- `createCall('destroy', {method: 'delete', cacher: cacheDestroy,
identified: true})` (lines 120-127). -/
def callDestroy : Call := ⟨"destroy", "delete", .destroyRec, true, false⟩

/-! ## Actions (lines 299-362) -/

/-- Parsed response data, the value of `call.parser(response.data,
fields)`: a single record for `parseSingle`-style calls, a record list
for `parseMultiple` (both parsers live in `~/index`, outside `src/`, so
their output is taken as given). -/
inductive Parsed where
  | one : JsObj → Parsed
  | many : List JsObj → Parsed
deriving DecidableEq

/-- How the (pluggable) request adapter settles: resolves with data whose
parse is `p`, or rejects. -/
inductive AdapterOutcome where
  | ok : Parsed → AdapterOutcome
  | err : AdapterOutcome
deriving DecidableEq

/-- The request-params object handed to the request adapter
(lines 343-348): resolved url, method, optional body. -/
structure Request where
  url : String
  method : String
  data : Option JsObj
deriving DecidableEq

/-- What one dispatch of an action produces. -/
inductive ActionResult where
  | thrown : String → ActionResult
  | cacheHit : JsObj → ActionResult
  | cacheList : List JsObj → ActionResult
  | netError : ActionResult
  | success : Parsed → ActionResult
deriving DecidableEq

/-- A run of an action: its result, the final module state, and — when
the request adapter was invoked — the request params together with the
module state at the moment of invocation (after the `loading` commit). -/
structure ActionTrace where
  result : ActionResult
  finalState : MState
  request : Option (Request × MState)
deriving DecidableEq

/-- Modelled from the spec: the default cachers from `~/index` (not under
`src/`).  Upsert-single commits the `createOrUpdate` mutation with the
parsed record, remove commits `destroy`, and upsert-multiple replaces
the entire cached list with the parsed sequence. -/
def applyCacher (idf : String) : CacherKind → MState → Parsed → MState
  | .single, s, .one r => mutCreateOrUpdate idf s r
  | .destroyRec, s, .one r => mutDestroy idf s r
  | .multiple, s, .many l => ⟨l, s.actionsLoading⟩
  | _, s, _ => s

/-- The synchronous identifier validation at the top of every action
(lines 310-313 and 322-325): an identified call with a falsy (or absent)
identifier field throws the `requires` error; a non-identified call with
a truthy identifier field throws the `can not be used` error. -/
def validationError (idf : String) (call : Call) (fields : JsObj) : Option String :=
  if call.identified then
    if !truthyAt fields idf then
      some ("The '" ++ call.name ++ "' action requires a 'fields." ++ idf ++ "' option")
    else none
  else
    if truthyAt fields idf then
      some ("The '" ++ call.name ++ "' action can not be used with the 'fields." ++ idf ++ "' option")
    else none

/-- JS `String#toLowerCase` restricted to what `method` needs. -/
def jsToLower (s : String) : String := String.mk (s.data.map Char.toLower)

/-- The request body (lines 332-336): a copy of the fields for
post/put/patch methods, `undefined` otherwise. -/
def requestData (method : String) (fields : JsObj) : Option JsObj :=
  if jsToLower method == "post" || jsToLower method == "put" || jsToLower method == "patch"
  then some fields else none

/-- The network-bound tail of an action (lines 332-357): compute the
body for post/put/patch, commit `loading`, build the url (a `getUrl`
throw happens inside the `try`, so `loaded` is still committed and the
adapter is never invoked), invoke the adapter, commit `loaded` in the
`finally`, and on success parse and cache. -/
def runNetwork (idf baseUrl : String) (call : Call) (s : MState) (fields : JsObj)
    (method : String) (outcome : AdapterOutcome) : ActionTrace :=
  match getUrl baseUrl idf fields with
  | .error e => ⟨.thrown e, mutLoaded (mutLoading s call.name) call.name, none⟩
  | .ok url =>
      match outcome with
      | .err =>
          ⟨.netError, mutLoaded (mutLoading s call.name) call.name,
           some (⟨url, method, requestData method fields⟩, mutLoading s call.name)⟩
      | .ok parsed =>
          ⟨.success parsed,
           applyCacher idf call.cacher (mutLoaded (mutLoading s call.name) call.name) parsed,
           some (⟨url, method, requestData method fields⟩, mutLoading s call.name)⟩

/-- One dispatch of the action generated for `call` (lines 303-358).
`method` and `readCache` are the per-dispatch options, defaulting at the
call sites to `call.method` and `call.readCache`; `outcome` is how the
pluggable request adapter would settle if invoked. -/
def runAction (idf baseUrl : String) (call : Call) (s : MState) (fields : JsObj)
    (method : String) (readCache : Bool) (outcome : AdapterOutcome) : ActionTrace :=
  match validationError idf call fields with
  | some e => ⟨.thrown e, s, none⟩
  | none =>
      if call.identified then
        if readCache then
          match readGetter idf s (getProp fields idf) with
          | some m => ⟨.cacheHit m, s, none⟩
          | none => runNetwork idf baseUrl call s fields method outcome
        else runNetwork idf baseUrl call s fields method outcome
      else
        if readCache then ⟨.cacheList s.index, s, none⟩
        else runNetwork idf baseUrl call s fields method outcome

deriving instance DecidableEq for Except

/-! ## Helper lemmas -/

theorem jsEqOpt_refl (o : Option Value) : jsEqOpt o o = true := by
  cases o with
  | none => rfl
  | some v => simp [jsEqOpt]

theorem jsEqOpt_symm (a b : Option Value) : jsEqOpt a b = jsEqOpt b a := by
  cases a <;> cases b <;> simp only [jsEqOpt]
  exact decide_eq_decide.mpr ⟨Eq.symm, Eq.symm⟩

theorem data_append (a b : String) : (a ++ b).data = a.data ++ b.data := rfl

theorem string_ext {a b : String} (h : a.data = b.data) : a = b := by
  cases a; cases b; exact congrArg String.mk h

theorem append_assoc_str (a b c : String) : a ++ b ++ c = a ++ (b ++ c) :=
  string_ext (by simp [data_append])

theorem dropLast_append_of_getLast? :
    ∀ (l : List Char) (a : Char), l.getLast? = some a → l.dropLast ++ [a] = l := by
  intro l
  induction l with
  | nil => intro a h; simp at h
  | cons b t ih =>
      intro a h
      cases t with
      | nil => simp at h; simp [h]
      | cons c t' =>
          rw [List.getLast?_cons_cons] at h
          simpa using ih a h

/-- When the url ends in `/`, it splits as its `dropLast` followed by the
separator. -/
theorem eq_dropLast_append_slash {url : String} (h : lastCharIsSlash url = true) :
    url = String.mk url.data.dropLast ++ "/" := by
  apply string_ext
  rw [data_append]
  have h' : url.data.getLast? = some '/' := by
    simpa [lastCharIsSlash] using h
  exact (dropLast_append_of_getLast? url.data '/' h').symm

theorem substitutePlaceholders_missing (fields : JsObj) (f : String) :
    ∀ (ps : List String) (url : String),
      ps.find? (fun g => (getProp fields g).isNone) = some f →
      substitutePlaceholders fields ps url =
        .error ("You must pass the '" ++ f ++ "' field") := by
  intro ps
  induction ps with
  | nil => intro url h; simp at h
  | cons p rest ih =>
      intro url h
      cases hp : getProp fields p with
      | none =>
          rw [List.find?_cons_of_pos _ (by simp [hp])] at h
          cases h
          simp [substitutePlaceholders, hp]
      | some v =>
          rw [List.find?_cons_of_neg _ (by simp [hp])] at h
          simpa [substitutePlaceholders, hp] using ih _ h

/-- C1 counterexample: the claim defines a placeholder as "a colon
followed by alphanumeric/underscore characters", so `:a1` in
`"/x/:a1"` is a placeholder and the fields map `{a: "v"}` lacks its
field `a1`; the claim then demands a failure naming `a1`.  The code's
regexp `/:([a-z,_]+)/gi` does not match digits, so it only requires the
field `a`, substitutes it, and returns the url `"/x/v1"` instead of
failing. -/
theorem c1_counterexample :
    getProp [("a", Value.vStr "v")] "a1" = none ∧
    getUrl "/x/:a1" "id" [("a", Value.vStr "v")] = Except.ok "/x/v1" := by
  decide

/-- C1 (amended): placeholders are what the code's regexp
`/:([a-z,_]+)/gi` matches — a colon followed by one or more letters,
commas or underscores (digits are not part of a placeholder name).  For
every base url and fields map, if some matched placeholder's field is
absent, `getUrl` fails with an error naming the first such missing
field, and no url is produced. -/
theorem c1_missing_placeholder_fails (baseUrl identifier f : String) (fields : JsObj)
    (h : (matchPlaceholders baseUrl).find? (fun g => (getProp fields g).isNone) = some f) :
    getUrl baseUrl identifier fields =
      .error ("You must pass the '" ++ f ++ "' field") := by
  unfold getUrl
  rw [substitutePlaceholders_missing fields f (matchPlaceholders baseUrl) baseUrl h]
  rfl

theorem c1_missing_placeholder_fails_witness :
    getUrl "/p/:uid" "id" [] = .error ("You must pass the '" ++ "uid" ++ "' field") :=
  c1_missing_placeholder_fails "/p/:uid" "id" "uid" [] (by decide)

/-- The substituted template with a single trailing separator removed
when present: the identifier segment is appended after exactly one `/`
relative to this core. -/
def stripTrailingSlash (s : String) : String :=
  if lastCharIsSlash s then String.mk s.data.dropLast else s

/-- The appending step always yields core-without-trailing-separator,
one separator, identifier — whether or not the url already ends in a
separator. -/
theorem appendIdentifier_eq_strip (identifier : String) (fields : JsObj) (url : String)
    (v : Value) (h : getProp fields identifier = some v) (hv : v.truthy = true) :
    appendIdentifier identifier fields url = stripTrailingSlash url ++ "/" ++ v.toStr := by
  unfold appendIdentifier stripTrailingSlash
  rw [h]
  show (if v.truthy = true then (if lastCharIsSlash url = true then url else url ++ "/") ++ v.toStr
        else url) =
      (if lastCharIsSlash url = true then String.mk url.data.dropLast else url) ++ "/" ++ v.toStr
  rw [hv, if_pos rfl]
  by_cases hs : lastCharIsSlash url = true
  · rw [if_pos hs, if_pos hs]
    conv_lhs => rw [eq_dropLast_append_slash hs]
  · rw [if_neg hs, if_neg hs]

/-- C2 counterexample: the fields map `{id: 0}` contains the configured
identifier field, yet `getUrl` appends no identifier segment, because
the code tests the field for truthiness (line 148) and `0` is falsy;
the claim demands the result `"/x/0"`, the code returns `"/x"`. -/
theorem c2_counterexample :
    getProp [("id", Value.vNum 0)] "id" = some (Value.vNum 0) ∧
    getUrl "/x" "id" [("id", Value.vNum 0)] = Except.ok "/x" := by
  decide

/-- C2 (amended): for every resource config and every fields map
containing the configured identifier field with a truthy value, `getUrl`
returns the substituted template with exactly one identifier segment
appended at the end, separated by exactly one separator character
(relative to the substituted template with any single trailing separator
removed), whether or not the template already ends with a separator; and
for every fields map not containing the identifier field, `getUrl`
returns the substituted template with no trailing identifier segment. -/
theorem c2_identifier_append (baseUrl identifier : String) (fields : JsObj) (S : String)
    (hs : substitutePlaceholders fields (matchPlaceholders baseUrl) baseUrl = .ok S) :
    (∀ v, getProp fields identifier = some v → v.truthy = true →
        getUrl baseUrl identifier fields = .ok (stripTrailingSlash S ++ "/" ++ v.toStr)) ∧
    (getProp fields identifier = none →
        getUrl baseUrl identifier fields = .ok S) := by
  constructor
  · intro v hv htr
    unfold getUrl
    rw [hs, Except.map, appendIdentifier_eq_strip identifier fields S v hv htr]
  · intro hnone
    unfold getUrl
    rw [hs, Except.map]
    unfold appendIdentifier
    rw [hnone]

theorem c2_identifier_append_witness :
    getUrl "/posts/" "id" [("id", Value.vNum 5)] = .ok "/posts/5" ∧
    getUrl "/posts" "id" [("id", Value.vNum 5)] = .ok "/posts/5" ∧
    getUrl "/posts" "id" [] = .ok "/posts" := by
  refine ⟨?_, ?_, ?_⟩
  · rw [(c2_identifier_append "/posts/" "id" [("id", Value.vNum 5)] "/posts/" (by decide)).1
        (Value.vNum 5) (by decide) (by decide)]
    decide
  · rw [(c2_identifier_append "/posts" "id" [("id", Value.vNum 5)] "/posts" (by decide)).1
        (Value.vNum 5) (by decide) (by decide)]
    decide
  · exact (c2_identifier_append "/posts" "id" [] "/posts" (by decide)).2 (by decide)

/-- C3 counterexample: `create` forbids the identifier, and the claim
demands that dispatching it with a fields map containing the identifier
field fails before any adapter call.  With `{id: 0}` the identifier
field is present but falsy, the validation (line 323) does not fire and
the request adapter IS invoked. -/
theorem c3_counterexample :
    getProp [("id", Value.vNum 0)] "id" = some (Value.vNum 0) ∧
    (runAction "id" "/" callCreate initialState [("id", Value.vNum 0)] "post" false
        AdapterOutcome.err).request.isSome = true := by
  decide

/-- C3 (amended): actions whose verb requires the identifier (read,
update, destroy are registered with `identified: true`; index and create
with `identified: false`) fail synchronously — unchanged state, no
adapter invocation — with an error naming the action and the identifier
field whenever the identifier field is absent or falsy; actions whose
verb forbids the identifier fail likewise whenever the identifier field
is present with a truthy value; in particular `create` with
`fields: {id: 7}` fails before any network call naming the `id` field
(see the witness). -/
theorem c3_validation_failures (idf baseUrl : String) (call : Call) (s : MState)
    (fields : JsObj) (method : String) (readCache : Bool) (o : AdapterOutcome) :
    (callRead.identified = true ∧ callUpdate.identified = true ∧
     callDestroy.identified = true ∧ callIndex.identified = false ∧
     callCreate.identified = false) ∧
    (call.identified = true → truthyAt fields idf = false →
      runAction idf baseUrl call s fields method readCache o =
        ⟨.thrown ("The '" ++ call.name ++ "' action requires a 'fields." ++ idf ++ "' option"),
         s, none⟩) ∧
    (call.identified = false → truthyAt fields idf = true →
      runAction idf baseUrl call s fields method readCache o =
        ⟨.thrown ("The '" ++ call.name ++
            "' action can not be used with the 'fields." ++ idf ++ "' option"),
         s, none⟩) := by
  refine ⟨by decide, ?_, ?_⟩
  · intro hid htr
    unfold runAction validationError
    rw [hid, htr]
    rfl
  · intro hid htr
    unfold runAction validationError
    rw [hid, htr]
    rfl

theorem c3_validation_failures_witness :
    runAction "id" "/" callCreate initialState [("id", Value.vNum 7)] "post" false
        AdapterOutcome.err =
      ⟨.thrown ("The '" ++ "create" ++ "' action can not be used with the 'fields." ++
          "id" ++ "' option"),
       initialState, none⟩ ∧
    runAction "id" "/posts" callRead initialState [] "get" true AdapterOutcome.err =
      ⟨.thrown ("The '" ++ "read" ++ "' action requires a 'fields." ++ "id" ++ "' option"),
       initialState, none⟩ := by
  constructor
  · rw [(c3_validation_failures "id" "/" callCreate initialState [("id", Value.vNum 7)]
        "post" false AdapterOutcome.err).2.2 rfl (by decide)]
    decide
  · rw [(c3_validation_failures "id" "/posts" callRead initialState [] "get" true
        AdapterOutcome.err).2.1 rfl (by decide)]
    decide

theorem filter_not_filter {α : Type} (p : α → Bool) (l : List α) :
    (l.filter (fun a => !p a)).filter p = [] := by
  rw [List.filter_filter]
  simp

theorem filter_not_idem {α : Type} (p : α → Bool) (l : List α) :
    (l.filter (fun a => !p a)).filter (fun a => !p a) = l.filter (fun a => !p a) := by
  rw [List.filter_filter]
  simp

/-- C4: the `createOrUpdate` mutation is idempotent: applied twice with
the same record, the cache holds exactly one record with that record's
identifier — the record itself — and the second application changes
nothing at all. -/
theorem c4_upsert_idempotent (idf : String) (s : MState) (r : JsObj) :
    ((mutCreateOrUpdate idf (mutCreateOrUpdate idf s r) r).index.filter
        (fun m => jsEqOpt (getProp m idf) (getProp r idf))) = [r] ∧
    mutCreateOrUpdate idf (mutCreateOrUpdate idf s r) r = mutCreateOrUpdate idf s r := by
  constructor
  · show (((s.index.filter (fun m => !(jsEqOpt (getProp m idf) (getProp r idf)))
          ++ [r]).filter (fun m => !(jsEqOpt (getProp m idf) (getProp r idf)))) ++ [r]).filter
        (fun m => jsEqOpt (getProp m idf) (getProp r idf)) = [r]
    simp only [List.filter_append]
    rw [filter_not_filter, filter_not_filter]
    simp [jsEqOpt_refl]
  · show MState.mk (((s.index.filter (fun m => !(jsEqOpt (getProp m idf) (getProp r idf)))
          ++ [r]).filter (fun m => !(jsEqOpt (getProp m idf) (getProp r idf)))) ++ [r])
        s.actionsLoading =
      MState.mk (s.index.filter (fun m => !(jsEqOpt (getProp m idf) (getProp r idf))) ++ [r])
        s.actionsLoading
    simp only [List.filter_append]
    rw [filter_not_idem]
    simp [jsEqOpt_refl]

/-- C5: destroying after an upsert with a record of the same identifier
leaves no record with that identifier; destroying when no cached record
matches the identifier is a no-op on the whole state. -/
theorem c5_destroy (idf : String) (s : MState) (r r2 : JsObj) :
    (jsEqOpt (getProp r2 idf) (getProp r idf) = true →
      ((mutDestroy idf (mutCreateOrUpdate idf s r) r2).index.all
        (fun m => !(jsEqOpt (getProp m idf) (getProp r idf)))) = true) ∧
    (s.index.all (fun m => !(jsEqOpt (getProp m idf) (getProp r idf))) = true →
      mutDestroy idf s r = s) := by
  constructor
  · intro h
    rw [List.all_eq_true]
    intro m hm
    have hm' : m ∈ (s.index.filter (fun m => !(jsEqOpt (getProp m idf) (getProp r idf)))
        ++ [r]).filter (fun m => !(jsEqOpt (getProp m idf) (getProp r2 idf))) := hm
    rw [List.mem_filter, List.mem_append] at hm'
    rcases hm' with ⟨hin | hr, hp2⟩
    · exact (List.mem_filter.mp hin).2
    · rw [List.mem_singleton] at hr
      subst hr
      rw [jsEqOpt_symm, h] at hp2
      simp at hp2
  · intro h
    obtain ⟨idx, al⟩ := s
    show MState.mk (idx.filter (fun m => !(jsEqOpt (getProp m idf) (getProp r idf)))) al =
      MState.mk idx al
    rw [List.filter_eq_self.mpr (List.all_eq_true.mp h)]

theorem c5_destroy_witness :
    ((mutDestroy "id" (mutCreateOrUpdate "id" (MState.mk [[("id", Value.vNum 1)]] [])
        [("id", Value.vNum 2)]) [("id", Value.vNum 2)]).index.all
      (fun m => !(jsEqOpt (getProp m "id") (getProp [("id", Value.vNum 2)] "id")))) = true ∧
    mutDestroy "id" (MState.mk [[("id", Value.vNum 1)]] []) [("id", Value.vNum 2)] =
      MState.mk [[("id", Value.vNum 1)]] [] :=
  ⟨(c5_destroy "id" (MState.mk [[("id", Value.vNum 1)]] []) [("id", Value.vNum 2)]
      [("id", Value.vNum 2)]).1 (by decide),
   (c5_destroy "id" (MState.mk [[("id", Value.vNum 1)]] []) [("id", Value.vNum 2)]
      [("id", Value.vNum 2)]).2 (by decide)⟩

/-- The cache-uniqueness invariant: pairwise distinct identifier values
(under JS strict equality) across the cached record list. -/
def UniqIndex (idf : String) (l : List JsObj) : Prop :=
  l.Pairwise (fun a b => jsEqOpt (getProp a idf) (getProp b idf) = false)

/-- C6: the uniqueness invariant — at most one record per identifier
value — holds for the initial state and is preserved by each of the four
mutations (`loading` and `loaded` do not touch the cache list at all). -/
theorem c6_uniqueness (idf : String) (s : MState) (r : JsObj) (a : String) :
    UniqIndex idf initialState.index ∧
    (UniqIndex idf s.index → UniqIndex idf (mutCreateOrUpdate idf s r).index) ∧
    (UniqIndex idf s.index → UniqIndex idf (mutDestroy idf s r).index) ∧
    (UniqIndex idf s.index → UniqIndex idf (mutLoading s a).index) ∧
    (UniqIndex idf s.index → UniqIndex idf (mutLoaded s a).index) := by
  refine ⟨List.Pairwise.nil, ?_, ?_, fun h => h, fun h => h⟩
  · intro h
    show UniqIndex idf
      (s.index.filter (fun m => !(jsEqOpt (getProp m idf) (getProp r idf))) ++ [r])
    unfold UniqIndex at h ⊢
    rw [List.pairwise_append]
    refine ⟨List.Pairwise.sublist (List.filter_sublist _) h,
            List.pairwise_singleton _ _, ?_⟩
    intro x hx y hy
    rw [List.mem_singleton] at hy
    subst hy
    have := (List.mem_filter.mp hx).2
    simpa using this
  · intro h
    exact List.Pairwise.sublist (List.filter_sublist _) h

theorem c6_uniqueness_witness :
    UniqIndex "id" (mutCreateOrUpdate "id" initialState [("id", Value.vNum 1)]).index ∧
    UniqIndex "id" (mutDestroy "id" initialState [("id", Value.vNum 1)]).index ∧
    UniqIndex "id" (mutLoading initialState "read").index ∧
    UniqIndex "id" (mutLoaded initialState "read").index :=
  ⟨(c6_uniqueness "id" initialState [("id", Value.vNum 1)] "read").2.1 List.Pairwise.nil,
   (c6_uniqueness "id" initialState [("id", Value.vNum 1)] "read").2.2.1 List.Pairwise.nil,
   (c6_uniqueness "id" initialState [("id", Value.vNum 1)] "read").2.2.2.1 List.Pairwise.nil,
   (c6_uniqueness "id" initialState [("id", Value.vNum 1)] "read").2.2.2.2 List.Pairwise.nil⟩

theorem find?_key_append_self (al : List (String × Option Int)) (k : String) (v : Option Int)
    (h : al.any (fun p => p.1 == k) = false) :
    (al ++ [(k, v)]).find? (fun p => p.1 == k) = some (k, v) := by
  induction al with
  | nil => simp
  | cons p rest ih =>
      rw [List.any_cons, Bool.or_eq_false_iff] at h
      rw [List.cons_append, List.find?_cons_of_neg _ (by simp [h.1])]
      exact ih h.2

theorem find?_key_map_set (al : List (String × Option Int)) (k : String) (v : Option Int)
    (h : al.any (fun p => p.1 == k) = true) :
    (al.map (fun p => if p.1 == k then (k, v) else p)).find? (fun p => p.1 == k) =
      some (k, v) := by
  induction al with
  | nil => simp at h
  | cons p rest ih =>
      by_cases hp : p.1 = k
      · simp [hp]
      · rw [List.any_cons] at h
        have hb : (p.1 == k) = false := by simp [hp]
        rw [hb, Bool.false_or] at h
        rw [List.map_cons, if_neg (by simp [hp]),
            List.find?_cons_of_neg _ (by simp [hp])]
        exact ih h

/-- Reading the key just written by `Object.assign({}, al, {[k]: v})`
gives the written value. -/
theorem lookupAL_setAL (al : List (String × Option Int)) (k : String) (v : Option Int) :
    lookupAL (setAL al k v) k = some v := by
  unfold setAL lookupAL
  by_cases h : al.any (fun p => p.1 == k) = true
  · rw [if_pos h, find?_key_map_set al k v h]
  · rw [if_neg h, find?_key_append_self al k v (by
      simp only [Bool.not_eq_true] at h
      exact h)]

/-- After the `loading` commit, the action's counter reads as one more
than before (a missing or NaN counter reading as 0, exactly the `|| 0`
of line 261). -/
theorem counter_after_loading (s : MState) (a : String) :
    lookupAL (mutLoading s a).actionsLoading a =
      some (some (orZero (lookupAL s.actionsLoading a) + 1)) := by
  unfold mutLoading
  exact lookupAL_setAL _ _ _

/-- `loaded` right after `loading` restores the counter to its pre-call
reading. -/
theorem counter_after_loaded (s : MState) (a : String) :
    lookupAL (mutLoaded (mutLoading s a) a).actionsLoading a =
      some (some (orZero (lookupAL s.actionsLoading a))) := by
  unfold mutLoaded
  rw [counter_after_loading]
  have h := lookupAL_setAL (mutLoading s a).actionsLoading a
      (some (orZero (lookupAL s.actionsLoading a) + 1 - 1))
  simpa using h

theorem applyCacher_actionsLoading (idf : String) (k : CacherKind) (s : MState) (p : Parsed) :
    (applyCacher idf k s p).actionsLoading = s.actionsLoading := by
  cases k <;> cases p <;> rfl

/-- Every dispatch either never invokes the adapter or runs the whole
network tail. -/
theorem runAction_cases (idf baseUrl : String) (call : Call) (s : MState) (fields : JsObj)
    (method : String) (readCache : Bool) (o : AdapterOutcome) :
    (runAction idf baseUrl call s fields method readCache o).request = none ∨
    runAction idf baseUrl call s fields method readCache o =
      runNetwork idf baseUrl call s fields method o := by
  obtain ⟨cn, cm, cc, ci, cr⟩ := call
  unfold runAction
  cases validationError idf ⟨cn, cm, cc, ci, cr⟩ fields with
  | some e => exact Or.inl rfl
  | none =>
      cases ci with
      | false =>
          cases readCache with
          | false => exact Or.inr rfl
          | true => exact Or.inl rfl
      | true =>
          cases readCache with
          | false => exact Or.inr rfl
          | true =>
              cases readGetter idf s (getProp fields idf) with
              | some m => exact Or.inl rfl
              | none => exact Or.inr rfl

/-- Whenever the network tail reports an adapter invocation, the state at
invocation is the post-`loading` state, the final counters are those of
`loaded` after `loading`, and a rejected adapter leaves the cache list
untouched. -/
theorem runNetwork_request_some (idf baseUrl : String) (call : Call) (s : MState)
    (fields : JsObj) (method : String) (o : AdapterOutcome) (req : Request) (sMid : MState)
    (h : (runNetwork idf baseUrl call s fields method o).request = some (req, sMid)) :
    sMid = mutLoading s call.name ∧
    (runNetwork idf baseUrl call s fields method o).finalState.actionsLoading =
      (mutLoaded (mutLoading s call.name) call.name).actionsLoading ∧
    (o = .err →
      (runNetwork idf baseUrl call s fields method o).finalState.index = s.index) := by
  unfold runNetwork at h ⊢
  cases hu : getUrl baseUrl idf fields with
  | error e =>
      rw [hu] at h
      exact Option.noConfusion h
  | ok url =>
      rw [hu] at h
      cases o with
      | err =>
          have hs : sMid = mutLoading s call.name :=
            (congrArg Prod.snd (Option.some.inj h)).symm
          exact ⟨hs, rfl, fun _ => rfl⟩
      | ok parsed =>
          have hs : sMid = mutLoading s call.name :=
            (congrArg Prod.snd (Option.some.inj h)).symm
          exact ⟨hs, applyCacher_actionsLoading idf call.cacher _ parsed,
                 fun he => by cases he⟩

/-- C7: whenever an action invokes the request adapter, the action's
loading counter (read through the code's own `|| 0` coercion of
line 261: an absent or NaN entry reads as 0) is one above its pre-call
value at the moment of invocation and is back to its pre-call value in
the final state, for a resolved and for a rejected adapter alike; a
counter that existed as a number before the call is restored to the very
same entry; and a rejected adapter leaves the cache list untouched. -/
theorem c7_loading_symmetry (idf baseUrl : String) (call : Call) (s : MState)
    (fields : JsObj) (method : String) (readCache : Bool) (o : AdapterOutcome)
    (req : Request) (sMid : MState)
    (h : (runAction idf baseUrl call s fields method readCache o).request = some (req, sMid)) :
    orZero (lookupAL sMid.actionsLoading call.name) =
      orZero (lookupAL s.actionsLoading call.name) + 1 ∧
    orZero (lookupAL
        (runAction idf baseUrl call s fields method readCache o).finalState.actionsLoading
        call.name) =
      orZero (lookupAL s.actionsLoading call.name) ∧
    (∀ n : Int, lookupAL s.actionsLoading call.name = some (some n) →
      lookupAL
          (runAction idf baseUrl call s fields method readCache o).finalState.actionsLoading
          call.name = some (some n)) ∧
    (o = .err →
      (runAction idf baseUrl call s fields method readCache o).finalState.index = s.index) := by
  rcases runAction_cases idf baseUrl call s fields method readCache o with hc | hc
  · rw [hc] at h
    exact absurd h (by simp)
  · rw [hc] at h ⊢
    obtain ⟨hmid, hfin, hidx⟩ := runNetwork_request_some idf baseUrl call s fields method o
        req sMid h
    subst hmid
    refine ⟨?_, ?_, ?_, hidx⟩
    · rw [counter_after_loading]
      rfl
    · rw [hfin, counter_after_loaded]
      rfl
    · intro n hn
      rw [hfin, counter_after_loaded, hn]
      rfl

theorem c7_loading_symmetry_witness :
    orZero (lookupAL (mutLoading initialState "index").actionsLoading "index") =
      orZero (lookupAL initialState.actionsLoading "index") + 1 ∧
    orZero (lookupAL
        (runAction "id" "/" callIndex initialState [] "get" false
          AdapterOutcome.err).finalState.actionsLoading "index") =
      orZero (lookupAL initialState.actionsLoading "index") ∧
    (runAction "id" "/" callIndex initialState [] "get" false
        AdapterOutcome.err).finalState.index = initialState.index := by
  obtain ⟨h1, h2, _, h4⟩ := c7_loading_symmetry "id" "/" callIndex initialState [] "get"
      false AdapterOutcome.err ⟨"/", "get", none⟩ (mutLoading initialState "index")
      (by decide)
  exact ⟨h1, h2, h4 rfl⟩

/-- C8: on a resource with base url `/posts/:post_id/comments`,
dispatching `read` (its registered defaults: method `get`, `readCache`
true) with fields `{post_id: 1, id: 3}` on a state caching no record
with identifier 3 invokes the request adapter with the url
`/posts/1/comments/3` and the HTTP method `get`, however the adapter
then settles. -/
theorem c8_read_scenario :
    readGetter "id" initialState (some (Value.vNum 3)) = none ∧
    ∀ o : AdapterOutcome,
      ((runAction "id" "/posts/:post_id/comments" callRead initialState
          [("post_id", Value.vNum 1), ("id", Value.vNum 3)] "get" true o).request).map
        (fun p => (p.1.url, p.1.method)) = some ("/posts/1/comments/3", "get") := by
  refine ⟨rfl, ?_⟩
  intro o
  cases o <;> rfl

/-- C9: a falsy identifier value (`0`, the empty string, `false`, and
also `null`) is treated as absent throughout the public interface: the
url builder appends no identifier segment (the result is exactly the
substituted template), every `identified: true` action (read, update,
destroy) throws the same `requires` error as for a missing field before
touching state or network, and the validation of every
`identified: false` action (index, create) raises no error. -/
theorem c9_falsy_identifier (v : Value) (hv : v.truthy = false) :
    (∀ (baseUrl identifier : String) (fields : JsObj),
        getProp fields identifier = some v →
        getUrl baseUrl identifier fields =
          substitutePlaceholders fields (matchPlaceholders baseUrl) baseUrl) ∧
    (∀ (idf baseUrl : String) (call : Call) (s : MState) (fields : JsObj)
        (method : String) (readCache : Bool) (o : AdapterOutcome),
        call.identified = true → getProp fields idf = some v →
        runAction idf baseUrl call s fields method readCache o =
          ⟨.thrown ("The '" ++ call.name ++ "' action requires a 'fields." ++ idf ++
              "' option"),
           s, none⟩) ∧
    (∀ (idf : String) (call : Call) (fields : JsObj),
        call.identified = false → getProp fields idf = some v →
        validationError idf call fields = none) := by
  refine ⟨?_, ?_, ?_⟩
  · intro baseUrl identifier fields hf
    unfold getUrl
    cases hs : substitutePlaceholders fields (matchPlaceholders baseUrl) baseUrl with
    | error e => rfl
    | ok u =>
        rw [Except.map]
        unfold appendIdentifier
        rw [hf]
        show Except.ok (if v.truthy = true
            then (if lastCharIsSlash u = true then u else u ++ "/") ++ v.toStr else u) =
          Except.ok u
        rw [hv]
        rfl
  · intro idf baseUrl call s fields method readCache o hid hf
    have ht : truthyAt fields idf = false := by
      unfold truthyAt
      rw [hf]
      exact hv
    unfold runAction validationError
    rw [hid, ht]
    rfl
  · intro idf call fields hid hf
    have ht : truthyAt fields idf = false := by
      unfold truthyAt
      rw [hf]
      exact hv
    unfold validationError
    rw [hid, ht]
    rfl

theorem c9_falsy_identifier_witness :
    getUrl "/posts" "id" [("id", Value.vNum 0)] =
      substitutePlaceholders [("id", Value.vNum 0)] (matchPlaceholders "/posts") "/posts" ∧
    runAction "id" "/" callRead initialState [("id", Value.vStr "")] "get" true
        AdapterOutcome.err =
      ⟨.thrown ("The '" ++ "read" ++ "' action requires a 'fields." ++ "id" ++ "' option"),
       initialState, none⟩ ∧
    validationError "id" callCreate [("id", Value.vBool false)] = none := by
  refine ⟨(c9_falsy_identifier (Value.vNum 0) (by decide)).1 "/posts" "id" _ (by decide),
          ?_,
          (c9_falsy_identifier (Value.vBool false) (by decide)).2.2 "id" callCreate _
            rfl (by decide)⟩
  rw [(c9_falsy_identifier (Value.vStr "") (by decide)).2.1 "id" "/" callRead initialState
      [("id", Value.vStr "")] "get" true AdapterOutcome.err rfl (by decide)]
  decide

/-- C10: each mutation is local to its own state field: `createOrUpdate`
and `destroy` rebuild only the cache list and leave the counter map
untouched, `loading` and `loaded` rebuild only the counter map and leave
the cache list untouched. -/
theorem c10_frame (idf : String) (s : MState) (r : JsObj) (a : String) :
    (mutCreateOrUpdate idf s r).actionsLoading = s.actionsLoading ∧
    (mutDestroy idf s r).actionsLoading = s.actionsLoading ∧
    (mutLoading s a).index = s.index ∧
    (mutLoaded s a).index = s.index :=
  ⟨rfl, rfl, rfl, rfl⟩
